import Mathlib

/-
Verification of the TodoHeroes task-store logic (src/src/components/TodoHeroes.tsx).

The component state and its mutation functions are embedded as pure Lean
definitions. Conventions of the embedding:

- Date.now() is modelled by an explicit parameter (now : Nat), sampled once per
  operation; the id and createdAt of a freshly added task both receive it.
- localStorage.setItem is fallible; each persisting operation takes a flag
  (writeOk : Bool). writeOk = false models setItem throwing, in which case the
  surrounding catch block runs and everything after the setItem call inside the
  try block is skipped, exactly as in the source.
- localStorage.getItem plus JSON.parse at startup is modelled by the TasksRead
  type below; the stored string under the tasks key is otherwise tracked as the
  task list it encodes, since the component only ever writes
  JSON.stringify of a task list.
- toast.success / toast.error calls are recorded in an append-only toasts list,
  so theorems can speak about what was reported to the user.
- The undo timeout (setTimeout / clearTimeout around undoTaskData) is modelled
  by the scheduled fire time undoDeadline; fireUndoTimer runs the scheduled
  callback once the current time has reached that deadline.
- JS truthiness tests on numeric ids (for example the guard at the top of
  confirmDeleteTask) are modelled exactly: null and 0 are both falsy.
-/

namespace TodoHeroes

/-- Models String.prototype.trim: drop whitespace from both ends. Defined over
the character list so that the kernel can evaluate it on concrete strings. -/
def jsTrim (s : String) : String :=
  String.mk (((s.data.dropWhile Char.isWhitespace).reverse.dropWhile Char.isWhitespace).reverse)

/-- The Task interface of the source: id, text, done, createdAt. -/
structure Task where
  id : Nat
  text : String
  done : Bool
  createdAt : Nat
deriving Repr, DecidableEq

/-- The Filter union type of the source. -/
inductive Filter
  | all
  | pending
  | completed
deriving Repr, DecidableEq

/-- The literal string stored under the filter key by saveFilter. -/
def filterString : Filter → String
  | Filter.all => "all"
  | Filter.pending => "pending"
  | Filter.completed => "completed"

/-- The toast messages the component can emit, named after the call sites. -/
inductive Toast
  | errorSavingTasks
  | errorDuplicateTask
  | errorEmptyEditText
  | taskAdded
  | taskCompleted
  | taskReactivated
  | taskDeleted
  | taskRestored
  | taskEdited
  | completedCleared (n : Nat)
deriving Repr, DecidableEq

/-- The component state relevant to the task store: the useState variables of
the source except the UI-only newTaskText, plus the persisted key-value slots
and the emitted toasts. undoDeadline is the scheduled fire time of the pending
undo timeout, if any. -/
structure StoreState where
  tasks : List Task
  filter : Filter
  editingId : Option Nat
  editText : String
  showDeleteModal : Bool
  taskPendingDeleteId : Option Nat
  taskPendingDeleteText : String
  undoTaskData : Option Task
  undoDeadline : Option Nat
  storedTasks : Option (List Task)
  storedFilter : Option String
  toasts : List Toast
deriving Repr, DecidableEq

/-- The state at component mount before the load effect runs: all useState
initial values, nothing persisted yet in this model. -/
def initialState : StoreState :=
  { tasks := []
    filter := Filter.all
    editingId := none
    editText := ""
    showDeleteModal := false
    taskPendingDeleteId := none
    taskPendingDeleteText := ""
    undoTaskData := none
    undoDeadline := none
    storedTasks := none
    storedFilter := none
    toasts := [] }

/-- A JSON value, used to state what loadTasks does with parsed data. -/
inductive JsonVal
  | null
  | bool (b : Bool)
  | num (n : Nat)
  | str (s : String)
  | arr (xs : List JsonVal)
  | obj (fields : List (String × JsonVal))

/-- The JSON object JSON.stringify produces for one task. -/
def Task.toJson (t : Task) : JsonVal :=
  JsonVal.obj
    [("id", JsonVal.num t.id), ("text", JsonVal.str t.text),
     ("done", JsonVal.bool t.done), ("createdAt", JsonVal.num t.createdAt)]

/-- The JSON array JSON.stringify produces for a task list. -/
def tasksToJson (ts : List Task) : JsonVal :=
  JsonVal.arr (ts.map Task.toJson)

/-- Outcome of localStorage.getItem on the tasks key combined with JSON.parse:
the key is absent (getItem null, or the falsy empty string), the stored string
is not valid JSON so JSON.parse throws, or JSON.parse returns a value. -/
inductive TasksRead
  | absent
  | malformed
  | parsed (j : JsonVal)

/-- Models loadTasks: the dynamic value held by the tasks state variable after
the load effect. The variable starts as the empty array; it is reassigned only
when getItem returned a truthy string and JSON.parse did not throw, and then to
whatever JSON.parse returned, with no schema validation. A parse exception is
swallowed by the catch block. -/
def loadTasks : TasksRead → JsonVal
  | TasksRead.absent => JsonVal.arr []
  | TasksRead.malformed => JsonVal.arr []
  | TasksRead.parsed j => j

/-- Models loadFilter: the filter state after the load effect, starting from
the initial value all. The stored string is installed only when it is one of
the three literals; none models an absent key or a getItem exception. -/
def loadFilter (saved : Option String) : Filter :=
  match saved with
  | none => Filter.all
  | some s =>
    if s = "all" then Filter.all
    else if s = "pending" then Filter.pending
    else if s = "completed" then Filter.completed
    else Filter.all

/-- Models saveTasks. When setItem succeeds, the list is persisted and setTasks
installs it in memory. When setItem throws (writeOk = false), the catch block
logs and emits the error toast, and the setTasks call after setItem inside the
try block never runs, so the in-memory list keeps its previous value. -/
def saveTasks (writeOk : Bool) (newTasks : List Task) (s : StoreState) : StoreState :=
  if writeOk then
    { s with storedTasks := some newTasks, tasks := newTasks }
  else
    { s with toasts := s.toasts ++ [Toast.errorSavingTasks] }

/-- Models saveFilter: persist the filter string and install it; on a setItem
exception the catch block only logs, so nothing changes. -/
def saveFilter (writeOk : Bool) (newFilter : Filter) (s : StoreState) : StoreState :=
  if writeOk then
    { s with storedFilter := some (filterString newFilter), filter := newFilter }
  else s

/-- Models addTask: trim, bail on empty, reject when the trimmed text equals
the text of the last task of the full list, otherwise append a fresh task with
id and createdAt both Date.now() and persist. -/
def addTask (writeOk : Bool) (now : Nat) (text : String) (s : StoreState) : StoreState :=
  let trimmedText := jsTrim text
  if trimmedText = "" then s
  else
    let isDup : Bool :=
      match s.tasks.getLast? with
      | some lastTask => lastTask.text == trimmedText
      | none => false
    if isDup then
      { s with toasts := s.toasts ++ [Toast.errorDuplicateTask] }
    else
      let newTask : Task := { id := now, text := trimmedText, done := false, createdAt := now }
      let s1 := saveTasks writeOk (s.tasks ++ [newTask]) s
      { s1 with toasts := s1.toasts ++ [Toast.taskAdded] }

/-- Models toggleDone: map over the list flipping done on the matching id,
persist, then toast according to the old done value of the task if found. -/
def toggleDone (writeOk : Bool) (id : Nat) (s : StoreState) : StoreState :=
  let newTasks :=
    s.tasks.map (fun task => if task.id = id then { task with done := !task.done } else task)
  let s1 := saveTasks writeOk newTasks s
  match s.tasks.find? (fun t => t.id == id) with
  | some task =>
    { s1 with toasts := s1.toasts ++ [if task.done then Toast.taskReactivated else Toast.taskCompleted] }
  | none => s1

/-- Models openDeleteModal: stage the id and a text snapshot and show the
modal; silently bail when the id is not in the list. -/
def openDeleteModal (id : Nat) (s : StoreState) : StoreState :=
  match s.tasks.find? (fun t => t.id == id) with
  | none => s
  | some taskToDelete =>
    { s with taskPendingDeleteId := some id
             taskPendingDeleteText := taskToDelete.text
             showDeleteModal := true }

/-- Models closeDeleteModal, minus the focus handling. -/
def closeDeleteModal (s : StoreState) : StoreState :=
  { s with showDeleteModal := false, taskPendingDeleteId := none, taskPendingDeleteText := "" }

/-- The undo window of the source: the setTimeout delay in confirmDeleteTask,
in the same time units as Date.now(). -/
def undoWindowMs : Nat := 3000

/-- Models confirmDeleteTask: bail when no id is staged (the JS guard treats
the id 0 as falsy as well) or when the staged id is no longer in the list;
otherwise remove every task with that id, persist, stash the found task for
undo, schedule the undo-expiry timeout (replacing any previous one), and close
the modal. -/
def confirmDeleteTask (writeOk : Bool) (now : Nat) (s : StoreState) : StoreState :=
  match s.taskPendingDeleteId with
  | none => s
  | some pid =>
    if pid = 0 then s
    else
      match s.tasks.find? (fun t => t.id == pid) with
      | none => s
      | some taskToDelete =>
        let newTasks := s.tasks.filter (fun task => task.id != pid)
        let s1 := saveTasks writeOk newTasks s
        let s2 :=
          { s1 with undoTaskData := some taskToDelete
                    toasts := s1.toasts ++ [Toast.taskDeleted]
                    undoDeadline := some (now + undoWindowMs) }
        closeDeleteModal s2

/-- Models the timeout callback scheduled by confirmDeleteTask: when current
time has reached the scheduled deadline, the callback runs and clears
undoTaskData. Before the deadline, or with no scheduled timeout, nothing
happens. -/
def fireUndoTimer (now : Nat) (s : StoreState) : StoreState :=
  match s.undoDeadline with
  | none => s
  | some d => if d ≤ now then { s with undoTaskData := none } else s

/-- Total order on tasks by createdAt, the comparator passed to sort. -/
def createdAtLe (a b : Task) : Prop := a.createdAt ≤ b.createdAt

instance : DecidableRel createdAtLe := fun a b => Nat.decLe a.createdAt b.createdAt

instance : IsTotal Task createdAtLe := ⟨fun a b => Nat.le_total a.createdAt b.createdAt⟩

instance : IsTrans Task createdAtLe := ⟨fun _ _ _ hab hbc => Nat.le_trans hab hbc⟩

/-- Models Array.prototype.sort with comparator on createdAt (a stable
comparison sort, rendered here as insertion sort). -/
def sortByCreatedAt (ts : List Task) : List Task :=
  ts.insertionSort createdAtLe

/-- Models undoDelete: bail when the undo slot is empty; otherwise append the
stored task, re-sort the whole list by ascending createdAt, persist, and clear
the slot and its timeout. -/
def undoDelete (writeOk : Bool) (s : StoreState) : StoreState :=
  match s.undoTaskData with
  | none => s
  | some undoTask =>
    let newTasks := sortByCreatedAt (s.tasks ++ [undoTask])
    let s1 := saveTasks writeOk newTasks s
    { s1 with undoTaskData := none
              undoDeadline := none
              toasts := s1.toasts ++ [Toast.taskRestored] }

/-- Models startEdit. -/
def startEdit (id : Nat) (text : String) (s : StoreState) : StoreState :=
  { s with editingId := some id, editText := text }

/-- Models cancelEdit. -/
def cancelEdit (s : StoreState) : StoreState :=
  { s with editingId := none, editText := "" }

/-- Models saveEdit: bail when no edit is in progress (the JS guard treats the
id 0 as falsy as well); reject with a toast when the trimmed edit text is
empty; otherwise replace the text of the matching task, persist, and leave
edit mode. -/
def saveEdit (writeOk : Bool) (s : StoreState) : StoreState :=
  match s.editingId with
  | none => s
  | some eid =>
    if eid = 0 then s
    else
      let trimmedText := jsTrim s.editText
      if trimmedText = "" then
        { s with toasts := s.toasts ++ [Toast.errorEmptyEditText] }
      else
        let newTasks :=
          s.tasks.map (fun task => if task.id = eid then { task with text := trimmedText } else task)
        let s1 := saveTasks writeOk newTasks s
        { s1 with editingId := none, editText := "", toasts := s1.toasts ++ [Toast.taskEdited] }

/-- Models clearCompleted: bail when nothing is completed; otherwise keep only
the pending tasks, persist, and toast the removed count. -/
def clearCompleted (writeOk : Bool) (s : StoreState) : StoreState :=
  let cnt := (s.tasks.filter (fun t => t.done)).length
  if cnt = 0 then s
  else
    let newTasks := s.tasks.filter (fun task => !task.done)
    let s1 := saveTasks writeOk newTasks s
    { s1 with toasts := s1.toasts ++ [Toast.completedCleared cnt] }

/-- Models the filteredTasks derived view: filter by the switch on the current
filter, default arm true. -/
def filteredTasks (tasks : List Task) (filter : Filter) : List Task :=
  tasks.filter (fun task =>
    match filter with
    | Filter.pending => !task.done
    | Filter.completed => task.done
    | Filter.all => true)

/-- Models the pendingCount derived value. -/
def pendingCount (tasks : List Task) : Nat :=
  (tasks.filter (fun t => !t.done)).length

/-- Models the completedCount derived value. -/
def completedCount (tasks : List Task) : Nat :=
  (tasks.filter (fun t => t.done)).length

/-- The user-level list operations of the uniqueness claim: add, delete
(request plus confirm), toggle. Each carries the Date.now() readings its
source functions make. -/
inductive ListOp
  | addOp (text : String) (now : Nat)
  | deleteOp (id : Nat) (now : Nat)
  | toggleOp (id : Nat)
deriving Repr, DecidableEq

/-- Run one list operation with the store available (all writes succeed);
delete is openDeleteModal followed by confirmDeleteTask. -/
def applyListOp (s : StoreState) : ListOp → StoreState
  | ListOp.addOp text now => addTask true now text s
  | ListOp.deleteOp id now => confirmDeleteTask true now (openDeleteModal id s)
  | ListOp.toggleOp id => toggleDone true id s

/-- Run a sequence of list operations from the empty store. -/
def runOps (ops : List ListOp) : StoreState :=
  ops.foldl applyListOp initialState

/-- The Date.now() values observed by the add operations of a sequence. -/
def addTimes : List ListOp → List Nat
  | [] => []
  | ListOp.addOp _ now :: rest => now :: addTimes rest
  | ListOp.deleteOp _ _ :: rest => addTimes rest
  | ListOp.toggleOp _ :: rest => addTimes rest

/-- The ids of a task list. -/
def taskIds (ts : List Task) : List Nat :=
  ts.map Task.id

/-- The toasts an operation emitted while stepping from s to s2; operations
only ever append to the toast list. -/
def emitted (s s2 : StoreState) : List Toast :=
  s2.toasts.drop s.toasts.length

/-- C8: addTask with input that trims to the empty string returns the state
unchanged: nothing is appended, nothing persisted, nothing reported. -/
theorem claim8_whitespace_add_is_noop (w : Bool) (now : Nat) (text : String) (s : StoreState)
    (h : jsTrim text = "") : addTask w now text s = s := by
  unfold addTask
  simp [h]

/-- Witness for C8 at a concrete whitespace-only input. -/
theorem claim8_witness :
    addTask true 7 "   " initialState = initialState :=
  claim8_whitespace_add_is_noop true 7 "   " initialState (by decide)

/-- C10: confirmDeleteTask with a staged id that no longer matches any task in
the list returns the state unchanged in every field: list, undo slot, timer
deadline, and the staged deletion itself. -/
theorem claim10_confirm_without_task_is_noop (w : Bool) (now pid : Nat) (s : StoreState)
    (hpid : s.taskPendingDeleteId = some pid)
    (habs : ∀ t ∈ s.tasks, t.id ≠ pid) :
    confirmDeleteTask w now s = s := by
  unfold confirmDeleteTask
  rw [hpid]
  by_cases h0 : pid = 0
  · simp [h0]
  · have hfind : s.tasks.find? (fun t => t.id == pid) = none :=
      List.find?_eq_none.mpr (fun t ht => by simp [habs t ht])
    simp [h0, hfind]

/-- Witness for C10: a staged id absent from the list, concrete state. -/
theorem claim10_witness :
    confirmDeleteTask true 50
      { initialState with
          taskPendingDeleteId := some 3
          taskPendingDeleteText := "a"
          showDeleteModal := true
          tasks := [{ id := 1, text := "a", done := false, createdAt := 1 }] } =
      { initialState with
          taskPendingDeleteId := some 3
          taskPendingDeleteText := "a"
          showDeleteModal := true
          tasks := [{ id := 1, text := "a", done := false, createdAt := 1 }] } :=
  claim10_confirm_without_task_is_noop true 50 3 _ (by decide) (by decide)

/-- C9: the filteredTasks view under pending is exactly the subsequence of
tasks with done = false (a sublist of the input, containing an element exactly
when it is a pending element of the input, with every pending occurrence
kept); under completed, exactly the done = true subsequence; under all, the
input list itself. The input list is a parameter of a pure function, so it is
never modified. -/
theorem claim9_filtered_tasks (tasks : List Task) :
    ((filteredTasks tasks Filter.pending).Sublist tasks ∧
      (∀ t, t ∈ filteredTasks tasks Filter.pending ↔ t ∈ tasks ∧ t.done = false) ∧
      (∀ t, (filteredTasks tasks Filter.pending).count t =
        if t.done then 0 else tasks.count t)) ∧
    ((filteredTasks tasks Filter.completed).Sublist tasks ∧
      (∀ t, t ∈ filteredTasks tasks Filter.completed ↔ t ∈ tasks ∧ t.done = true) ∧
      (∀ t, (filteredTasks tasks Filter.completed).count t =
        if t.done then tasks.count t else 0)) ∧
    filteredTasks tasks Filter.all = tasks := by
  refine ⟨⟨List.filter_sublist _, ?_, ?_⟩, ⟨List.filter_sublist _, ?_, ?_⟩, ?_⟩
  · intro t
    simp [filteredTasks, List.mem_filter]
  · intro t
    by_cases hd : t.done
    · simp only [hd, if_true]
      exact List.count_eq_zero.mpr (fun hmem => by
        have := (List.mem_filter.mp hmem).2
        simp [hd] at this)
    · simp only [hd, if_false]
      exact List.count_filter (by simp [hd])
  · intro t
    simp [filteredTasks, List.mem_filter]
  · intro t
    by_cases hd : t.done
    · simp only [hd, if_true]
      exact List.count_filter (by simp [hd])
    · simp only [hd, if_false]
      exact List.count_eq_zero.mpr (fun hmem => by
        have := (List.mem_filter.mp hmem).2
        simp [hd] at this)
  · simp [filteredTasks]

/-- C3 counterexample: the number 5 is valid JSON but is not a task array, so
it is schema-mismatched; the claim says loadTasks must then initialize to the
empty task list, but loadTasks installs the parsed value itself, which is not
the JSON of the empty task list. -/
theorem claim3_counterexample :
    loadTasks (TasksRead.parsed (JsonVal.num 5)) = JsonVal.num 5 ∧
    JsonVal.num 5 ≠ tasksToJson [] :=
  ⟨rfl, fun h => JsonVal.noConfusion h⟩

/-- C3 amended: load never fails hard and an absent key or unparsable JSON
yields the empty task list; the filter likewise defaults to all when its key
is absent or holds anything but the three literals. But parseable JSON is
installed with no schema validation, so a schema-mismatched value is kept
as-is rather than replaced by the empty list. -/
theorem claim3_amended :
    loadTasks TasksRead.absent = tasksToJson [] ∧
    loadTasks TasksRead.malformed = tasksToJson [] ∧
    (∀ j, loadTasks (TasksRead.parsed j) = j) ∧
    loadFilter none = Filter.all ∧
    (∀ str, str ∉ ["all", "pending", "completed"] → loadFilter (some str) = Filter.all) := by
  refine ⟨rfl, rfl, fun j => rfl, rfl, ?_⟩
  intro str h
  simp only [List.mem_cons, List.mem_singleton, not_or] at h
  obtain ⟨h1, h2, h3⟩ := h
  simp [loadFilter, h1, h2, h3]

/-- Witness for the amended C3 at concrete reads. -/
theorem claim3_witness :
    loadTasks TasksRead.malformed = tasksToJson [] ∧ loadFilter (some "garbage") = Filter.all :=
  ⟨claim3_amended.2.1, claim3_amended.2.2.2.2 "garbage" (by decide)⟩

/-- C6: when the undo slot is empty, or the scheduled expiry deadline has been
reached (so the timeout callback has cleared the slot), running undoDelete
leaves the task list, the filter, and both persisted slots unchanged. -/
theorem claim6_undo_expired_is_noop (w : Bool) (now : Nat) (s : StoreState)
    (h : s.undoTaskData = none ∨ ∃ d, s.undoDeadline = some d ∧ d ≤ now) :
    (undoDelete w (fireUndoTimer now s)).tasks = s.tasks ∧
    (undoDelete w (fireUndoTimer now s)).filter = s.filter ∧
    (undoDelete w (fireUndoTimer now s)).storedTasks = s.storedTasks ∧
    (undoDelete w (fireUndoTimer now s)).storedFilter = s.storedFilter := by
  rcases h with hnone | ⟨d, hd, hle⟩
  · have hfire : (fireUndoTimer now s).undoTaskData = none := by
      unfold fireUndoTimer
      cases hdl : s.undoDeadline with
      | none => simpa using hnone
      | some d => by_cases hle : d ≤ now <;> simp [hle, hnone]
    unfold undoDelete
    rw [hfire]
    unfold fireUndoTimer
    cases hdl : s.undoDeadline with
    | none => exact ⟨rfl, rfl, rfl, rfl⟩
    | some d => by_cases hle : d ≤ now <;> simp [hle]
  · have hfire : fireUndoTimer now s = { s with undoTaskData := none } := by
      unfold fireUndoTimer
      rw [hd]
      simp [hle]
    rw [hfire]
    unfold undoDelete
    exact ⟨rfl, rfl, rfl, rfl⟩

/-- Witness for C6: a state whose deadline 40 has passed at time 50. -/
theorem claim6_witness :
    (undoDelete true (fireUndoTimer 50
      { initialState with
          undoTaskData := some { id := 1, text := "a", done := false, createdAt := 1 }
          undoDeadline := some 40 })).tasks =
      ({ initialState with
          undoTaskData := some { id := 1, text := "a", done := false, createdAt := 1 }
          undoDeadline := some 40 } : StoreState).tasks :=
  (claim6_undo_expired_is_noop true 50 _ (Or.inr ⟨40, rfl, by decide⟩)).1

/-- C7: saveEdit, the commit of an edit of the task with the staged id. When
the edit text trims to empty it reports the validation error and changes
neither the task list nor the persisted list; when it trims to something
non-empty it replaces the text of the task with the staged id by the trimmed
text, persists the new list, and reports success. -/
theorem claim7_commit_edit (s : StoreState) (eid : Nat)
    (heid : s.editingId = some eid) (heid0 : eid ≠ 0) :
    (jsTrim s.editText = "" →
      (saveEdit true s).tasks = s.tasks ∧
      (saveEdit true s).storedTasks = s.storedTasks ∧
      emitted s (saveEdit true s) = [Toast.errorEmptyEditText]) ∧
    (jsTrim s.editText ≠ "" →
      (saveEdit true s).tasks =
        s.tasks.map (fun task =>
          if task.id = eid then { task with text := jsTrim s.editText } else task) ∧
      (saveEdit true s).storedTasks =
        some (s.tasks.map (fun task =>
          if task.id = eid then { task with text := jsTrim s.editText } else task)) ∧
      emitted s (saveEdit true s) = [Toast.taskEdited]) := by
  constructor
  · intro hempty
    unfold saveEdit
    rw [heid]
    simp [heid0, hempty, emitted, List.drop_left]
  · intro hne
    unfold saveEdit saveTasks
    rw [heid]
    simp [heid0, hne, emitted, List.drop_left]

/-- A concrete state for the C7 witness: one task, an edit of it in progress
with pending text b padded by whitespace. -/
def editWitnessState : StoreState :=
  { initialState with
      tasks := [{ id := 1, text := "a", done := false, createdAt := 1 }]
      storedTasks := some [{ id := 1, text := "a", done := false, createdAt := 1 }]
      editingId := some 1
      editText := " b " }

/-- Witness for C7: committing the staged edit replaces the text of task 1 by
the trimmed text and persists the new list. -/
theorem claim7_witness :
    (saveEdit true editWitnessState).tasks =
      editWitnessState.tasks.map (fun task =>
        if task.id = 1 then { task with text := jsTrim editWitnessState.editText } else task) ∧
    (saveEdit true editWitnessState).storedTasks =
      some (editWitnessState.tasks.map (fun task =>
        if task.id = 1 then { task with text := jsTrim editWitnessState.editText } else task)) ∧
    emitted editWitnessState (saveEdit true editWitnessState) = [Toast.taskEdited] :=
  (claim7_commit_edit editWitnessState 1 rfl (by decide)).2 (by decide)

/-- A one-task state for the C1 counterexample. -/
def failTask : Task :=
  { id := 1, text := "a", done := false, createdAt := 1 }

/-- State holding failTask in memory and in the store. -/
def failState : StoreState :=
  { initialState with tasks := [failTask], storedTasks := some [failTask] }

/-- C1 counterexample: toggling task 1 while the store write fails. The claim
says the in-memory list must still hold the mutated value, with done flipped
to true; in the code the catch block skips the setTasks call, so the list
still holds the old value with done = false. -/
theorem claim1_counterexample :
    (toggleDone false 1 failState).tasks ≠ [{ failTask with done := true }] ∧
    (toggleDone false 1 failState).tasks = [failTask] := by
  decide

/-- C1 amended: for every task-list mutation, when the key-value store write
fails the in-memory task list and the persisted list both keep their previous
values (the mutation is discarded, not applied unpersisted), and the failure
is reported as a non-fatal warning toast. Each conjunct carries the guards its
operation needs to reach the save call. -/
theorem claim1_write_failure_discards_mutation (s : StoreState) :
    (∀ text now, jsTrim text ≠ "" →
      (∀ lt, s.tasks.getLast? = some lt → lt.text ≠ jsTrim text) →
      (addTask false now text s).tasks = s.tasks ∧
      (addTask false now text s).storedTasks = s.storedTasks ∧
      Toast.errorSavingTasks ∈ emitted s (addTask false now text s)) ∧
    (∀ id, (toggleDone false id s).tasks = s.tasks ∧
      (toggleDone false id s).storedTasks = s.storedTasks ∧
      Toast.errorSavingTasks ∈ emitted s (toggleDone false id s)) ∧
    (∀ now pid t0, s.taskPendingDeleteId = some pid → pid ≠ 0 →
      s.tasks.find? (fun t => t.id == pid) = some t0 →
      (confirmDeleteTask false now s).tasks = s.tasks ∧
      (confirmDeleteTask false now s).storedTasks = s.storedTasks ∧
      Toast.errorSavingTasks ∈ emitted s (confirmDeleteTask false now s)) ∧
    (∀ u, s.undoTaskData = some u →
      (undoDelete false s).tasks = s.tasks ∧
      (undoDelete false s).storedTasks = s.storedTasks ∧
      Toast.errorSavingTasks ∈ emitted s (undoDelete false s)) ∧
    (∀ eid, s.editingId = some eid → eid ≠ 0 → jsTrim s.editText ≠ "" →
      (saveEdit false s).tasks = s.tasks ∧
      (saveEdit false s).storedTasks = s.storedTasks ∧
      Toast.errorSavingTasks ∈ emitted s (saveEdit false s)) ∧
    ((s.tasks.filter (fun t => t.done)).length ≠ 0 →
      (clearCompleted false s).tasks = s.tasks ∧
      (clearCompleted false s).storedTasks = s.storedTasks ∧
      Toast.errorSavingTasks ∈ emitted s (clearCompleted false s)) := by
  refine ⟨?_, ?_, ?_, ?_, ?_, ?_⟩
  · intro text now hne hlast
    have hdup : (match s.tasks.getLast? with
        | some lastTask => lastTask.text == jsTrim text
        | none => false) = false := by
      cases hl : s.tasks.getLast? with
      | none => rfl
      | some lt => simpa using hlast lt hl
    unfold addTask saveTasks
    simp only [hne, if_false, hdup, Bool.false_eq_true, emitted]
    simp [List.drop_left]
  · intro id
    unfold toggleDone saveTasks
    cases hf : s.tasks.find? (fun t => t.id == id) with
    | none => simp [emitted, List.drop_left]
    | some t => simp [emitted, List.append_assoc, List.drop_left]
  · intro now pid t0 hpid hpid0 hfind
    unfold confirmDeleteTask saveTasks closeDeleteModal
    rw [hpid]
    simp [hpid0, hfind, emitted, List.append_assoc, List.drop_left]
  · intro u hu
    unfold undoDelete saveTasks
    rw [hu]
    simp [emitted, List.append_assoc, List.drop_left]
  · intro eid heid heid0 hne
    unfold saveEdit saveTasks
    rw [heid]
    simp [heid0, hne, emitted, List.append_assoc, List.drop_left]
  · intro hcnt
    unfold clearCompleted saveTasks
    simp only [hcnt, if_false]
    simp [hcnt, emitted, List.append_assoc, List.drop_left]

/-- A state exercising every mutation of C1 at once: two tasks, a staged
deletion of task 1, an undo slot, and an edit of task 2 in progress. -/
def persistFailState : StoreState :=
  { initialState with
      tasks := [{ id := 1, text := "a", done := false, createdAt := 1 },
                { id := 2, text := "b", done := true, createdAt := 2 }]
      storedTasks := some [{ id := 1, text := "a", done := false, createdAt := 1 },
                           { id := 2, text := "b", done := true, createdAt := 2 }]
      taskPendingDeleteId := some 1
      taskPendingDeleteText := "a"
      showDeleteModal := true
      undoTaskData := some { id := 3, text := "c", done := false, createdAt := 3 }
      undoDeadline := some 100
      editingId := some 2
      editText := " e " }

/-- Witness for the amended C1: all six mutations at concrete inputs on
persistFailState with the write failing; the added text a duplicates the
earlier non-last task, which the last-task-only guard lets through. -/
theorem claim1_witness :
    ((addTask false 9 " a " persistFailState).tasks = persistFailState.tasks ∧
      (addTask false 9 " a " persistFailState).storedTasks = persistFailState.storedTasks ∧
      Toast.errorSavingTasks ∈ emitted persistFailState (addTask false 9 " a " persistFailState)) ∧
    ((toggleDone false 1 persistFailState).tasks = persistFailState.tasks ∧
      (toggleDone false 1 persistFailState).storedTasks = persistFailState.storedTasks ∧
      Toast.errorSavingTasks ∈ emitted persistFailState (toggleDone false 1 persistFailState)) ∧
    ((confirmDeleteTask false 50 persistFailState).tasks = persistFailState.tasks ∧
      (confirmDeleteTask false 50 persistFailState).storedTasks = persistFailState.storedTasks ∧
      Toast.errorSavingTasks ∈ emitted persistFailState (confirmDeleteTask false 50 persistFailState)) ∧
    ((undoDelete false persistFailState).tasks = persistFailState.tasks ∧
      (undoDelete false persistFailState).storedTasks = persistFailState.storedTasks ∧
      Toast.errorSavingTasks ∈ emitted persistFailState (undoDelete false persistFailState)) ∧
    ((saveEdit false persistFailState).tasks = persistFailState.tasks ∧
      (saveEdit false persistFailState).storedTasks = persistFailState.storedTasks ∧
      Toast.errorSavingTasks ∈ emitted persistFailState (saveEdit false persistFailState)) ∧
    ((clearCompleted false persistFailState).tasks = persistFailState.tasks ∧
      (clearCompleted false persistFailState).storedTasks = persistFailState.storedTasks ∧
      Toast.errorSavingTasks ∈ emitted persistFailState (clearCompleted false persistFailState)) := by
  have h := claim1_write_failure_discards_mutation persistFailState
  exact ⟨h.1 " a " 9 (by decide)
           (by
             intro lt hl
             have h2 := Option.some.inj hl
             rw [← h2]
             decide),
         h.2.1 1,
         h.2.2.1 50 1 { id := 1, text := "a", done := false, createdAt := 1 }
           (by decide) (by decide) (by decide),
         h.2.2.2.1 { id := 3, text := "c", done := false, createdAt := 3 } (by decide),
         h.2.2.2.2.1 2 (by decide) (by decide) (by decide),
         h.2.2.2.2.2 (by decide)⟩

/-- Helper: the last element of a list is a member. -/
lemma mem_of_getLast?_eq {α : Type} {l : List α} {a : α} (hl : l.getLast? = some a) : a ∈ l := by
  obtain ⟨hn, heq⟩ := List.mem_getLast?_eq_getLast (show a ∈ l.getLast? from hl)
  rw [heq]
  exact List.getLast_mem hn

/-- Helper: addTask on input trimming to empty is the identity. -/
lemma addTask_of_trim_empty (w : Bool) (now : Nat) (text : String) (s : StoreState)
    (h : jsTrim text = "") : addTask w now text s = s := by
  unfold addTask
  simp [h]

/-- Helper: addTask when the trimmed text matches the last task only emits the
duplicate toast. -/
lemma addTask_of_dup (w : Bool) (now : Nat) (text : String) (s : StoreState) (lt : Task)
    (hne : jsTrim text ≠ "") (hl : s.tasks.getLast? = some lt) (hdup : lt.text = jsTrim text) :
    addTask w now text s = { s with toasts := s.toasts ++ [Toast.errorDuplicateTask] } := by
  unfold addTask
  simp [hne, hl, hdup]

/-- Helper: addTask in the appending branch, for both write outcomes. -/
lemma addTask_of_new (w : Bool) (now : Nat) (text : String) (s : StoreState)
    (hne : jsTrim text ≠ "")
    (hfresh : ∀ lt, s.tasks.getLast? = some lt → lt.text ≠ jsTrim text) :
    addTask w now text s =
      (fun s1 => { s1 with toasts := s1.toasts ++ [Toast.taskAdded] })
        (saveTasks w (s.tasks ++ [{ id := now, text := jsTrim text, done := false, createdAt := now }]) s) := by
  have hdup : (match s.tasks.getLast? with
      | some lastTask => lastTask.text == jsTrim text
      | none => false) = false := by
    cases hl : s.tasks.getLast? with
    | none => rfl
    | some lt => simpa using hfresh lt hl
  unfold addTask
  simp only [hne, if_false, hdup, Bool.false_eq_true]

/-- C4: addTask rejects as a duplicate, leaving the list unchanged and
reporting the duplicate toast, exactly when the trimmed text equals the text
of the last task of the full list; and with working persistence, a non-empty
trimmed text different from the last text is appended as a fresh task, even
when the same text occurs earlier in the list. The hypothesis that stored
texts are non-empty is the invariant maintained by all mutations. -/
theorem claim4_duplicate_rule (s : StoreState) (text : String) (now : Nat) (w : Bool)
    (hne : ∀ t ∈ s.tasks, t.text ≠ "") :
    (((addTask w now text s).tasks = s.tasks ∧
        Toast.errorDuplicateTask ∈ emitted s (addTask w now text s)) ↔
      (∃ lt, s.tasks.getLast? = some lt ∧ lt.text = jsTrim text)) ∧
    (jsTrim text ≠ "" → (∀ lt, s.tasks.getLast? = some lt → lt.text ≠ jsTrim text) →
      (addTask true now text s).tasks =
        s.tasks ++ [{ id := now, text := jsTrim text, done := false, createdAt := now }]) := by
  by_cases h0 : jsTrim text = ""
  · refine ⟨⟨?_, ?_⟩, ?_⟩
    · rintro ⟨htasks, hdup⟩
      rw [addTask_of_trim_empty w now text s h0] at hdup
      simp [emitted, List.drop_length] at hdup
    · rintro ⟨lt, hl, hlt⟩
      exact absurd (hlt.trans h0) (hne lt (mem_of_getLast?_eq hl))
    · intro hcon _
      exact absurd h0 hcon
  · by_cases hd : ∃ lt, s.tasks.getLast? = some lt ∧ lt.text = jsTrim text
    · obtain ⟨lt, hl, hdup⟩ := hd
      refine ⟨⟨?_, ?_⟩, ?_⟩
      · intro _
        exact ⟨lt, hl, hdup⟩
      · intro _
        rw [addTask_of_dup w now text s lt h0 hl hdup]
        simp [emitted, List.drop_left]
      · intro _ hfresh
        exact absurd hdup (hfresh lt hl)
    · have hfresh : ∀ lt, s.tasks.getLast? = some lt → lt.text ≠ jsTrim text :=
        fun lt hl hcon => hd ⟨lt, hl, hcon⟩
      refine ⟨⟨?_, ?_⟩, ?_⟩
      · rintro ⟨htasks, hdup2⟩
        rw [addTask_of_new w now text s h0 hfresh] at htasks hdup2
        cases w with
        | true =>
          have := congrArg List.length htasks
          simp [saveTasks] at this
        | false =>
          simp [saveTasks, emitted, List.append_assoc, List.drop_left] at hdup2
      · intro h2
        exact absurd h2 hd
      · intro _ _
        rw [addTask_of_new true now text s h0 hfresh]
        simp [saveTasks]

/-- A state for the C4 witness: the text x occurs first, then a different
text y; adding x again must append despite the earlier occurrence. -/
def dupWitnessState : StoreState :=
  { initialState with
      tasks := [{ id := 1, text := "x", done := false, createdAt := 1 },
                { id := 2, text := "y", done := false, createdAt := 2 }]
      storedTasks := some [{ id := 1, text := "x", done := false, createdAt := 1 },
                           { id := 2, text := "y", done := false, createdAt := 2 }] }

/-- Witness for C4: adding x after the intervening different task y succeeds
and appends a fresh task with text x. -/
theorem claim4_witness :
    (addTask true 9 " x " dupWitnessState).tasks =
      dupWitnessState.tasks ++
        [{ id := 9, text := jsTrim " x ", done := false, createdAt := 9 }] :=
  (claim4_duplicate_rule dupWitnessState " x " 9 true (by decide)).2 (by decide)
    (by
      intro lt h
      have h2 := Option.some.inj h
      rw [← h2]
      decide)

/-- Helper: the task list after a successful confirmDeleteTask of a staged and
present id is the filtered list. -/
lemma confirmDeleteTask_found_tasks (now pid : Nat) (t0 : Task) (s : StoreState)
    (hpid : s.taskPendingDeleteId = some pid) (hpid0 : pid ≠ 0)
    (hfind : s.tasks.find? (fun t => t.id == pid) = some t0) :
    (confirmDeleteTask true now s).tasks = s.tasks.filter (fun task => task.id != pid) := by
  unfold confirmDeleteTask
  rw [hpid]
  simp [hpid0, hfind, saveTasks, closeDeleteModal]

/-- Helper: the undo slot after a successful confirmDeleteTask holds the found
task. -/
lemma confirmDeleteTask_found_undo (now pid : Nat) (t0 : Task) (s : StoreState)
    (hpid : s.taskPendingDeleteId = some pid) (hpid0 : pid ≠ 0)
    (hfind : s.tasks.find? (fun t => t.id == pid) = some t0) :
    (confirmDeleteTask true now s).undoTaskData = some t0 := by
  unfold confirmDeleteTask
  rw [hpid]
  simp [hpid0, hfind, saveTasks, closeDeleteModal]

/-- Helper: the task list after undoDelete with a filled slot is the sorted
append. -/
lemma undoDelete_slot_tasks (u : Task) (s : StoreState) (hslot : s.undoTaskData = some u) :
    (undoDelete true s).tasks = sortByCreatedAt (s.tasks ++ [u]) := by
  unfold undoDelete
  rw [hslot]
  simp [saveTasks]

/-- C5: with ids unique in the list, confirming the staged deletion of a
present task and then immediately undoing it yields a task list with exactly
the members of the original list, ordered by ascending createdAt. -/
theorem claim5_delete_then_undo_restores (s : StoreState) (now pid : Nat) (t0 : Task)
    (hpid : s.taskPendingDeleteId = some pid) (hpid0 : pid ≠ 0)
    (hfind : s.tasks.find? (fun t => t.id == pid) = some t0)
    (hnodup : (taskIds s.tasks).Nodup) :
    (∀ x, x ∈ (undoDelete true (confirmDeleteTask true now s)).tasks ↔ x ∈ s.tasks) ∧
    (undoDelete true (confirmDeleteTask true now s)).tasks.Pairwise createdAtLe := by
  have hslot := confirmDeleteTask_found_undo now pid t0 s hpid hpid0 hfind
  have htasks1 := confirmDeleteTask_found_tasks now pid t0 s hpid hpid0 hfind
  have htasks2 := undoDelete_slot_tasks t0 (confirmDeleteTask true now s) hslot
  rw [htasks1] at htasks2
  have ht0mem : t0 ∈ s.tasks := List.mem_of_find?_eq_some hfind
  have ht0id : t0.id = pid := by
    have := List.find?_some hfind
    simpa using this
  constructor
  · intro x
    rw [htasks2]
    have hperm := List.perm_insertionSort createdAtLe
      (s.tasks.filter (fun task => task.id != pid) ++ [t0])
    rw [show sortByCreatedAt (s.tasks.filter (fun task => task.id != pid) ++ [t0]) =
        List.insertionSort createdAtLe (s.tasks.filter (fun task => task.id != pid) ++ [t0]) from rfl]
    rw [(hperm.mem_iff : _)]
    simp only [List.mem_append, List.mem_filter, List.mem_singleton]
    constructor
    · rintro (⟨hmem, _⟩ | hx)
      · exact hmem
      · rw [hx]
        exact ht0mem
    · intro hmem
      by_cases hx : x.id = pid
      · right
        apply List.inj_on_of_nodup_map hnodup hmem ht0mem
        rw [hx, ht0id]
      · left
        exact ⟨hmem, by simpa using hx⟩
  · rw [htasks2]
    exact List.sorted_insertionSort createdAtLe _

/-- A state for the C5 witness: two tasks with task 1 staged for deletion. -/
def undoWitnessState : StoreState :=
  { initialState with
      tasks := [{ id := 1, text := "a", done := false, createdAt := 4 },
                { id := 2, text := "b", done := true, createdAt := 2 }]
      storedTasks := some [{ id := 1, text := "a", done := false, createdAt := 4 },
                           { id := 2, text := "b", done := true, createdAt := 2 }]
      taskPendingDeleteId := some 1
      taskPendingDeleteText := "a"
      showDeleteModal := true }

/-- Witness for C5 on undoWitnessState: deleting task 1 and undoing at once
restores the members and leaves the list sorted by createdAt. -/
theorem claim5_witness :
    (∀ x, x ∈ (undoDelete true (confirmDeleteTask true 10 undoWitnessState)).tasks ↔
      x ∈ undoWitnessState.tasks) ∧
    (undoDelete true (confirmDeleteTask true 10 undoWitnessState)).tasks.Pairwise createdAtLe :=
  claim5_delete_then_undo_restores undoWitnessState 10 1
    { id := 1, text := "a", done := false, createdAt := 4 }
    (by decide) (by decide) (by decide) (by decide)

/-- Helper: addTask either leaves the list alone (empty input, duplicate, or
failed write) or appends the one fresh task. -/
lemma addTask_tasks_cases (w : Bool) (now : Nat) (text : String) (s : StoreState) :
    (addTask w now text s).tasks = s.tasks ∨
      (addTask w now text s).tasks =
        s.tasks ++ [{ id := now, text := jsTrim text, done := false, createdAt := now }] := by
  by_cases h0 : jsTrim text = ""
  · left
    rw [addTask_of_trim_empty w now text s h0]
  · by_cases hd : ∃ lt, s.tasks.getLast? = some lt ∧ lt.text = jsTrim text
    · obtain ⟨lt, hl, hdup⟩ := hd
      left
      rw [addTask_of_dup w now text s lt h0 hl hdup]
    · have hfresh : ∀ lt, s.tasks.getLast? = some lt → lt.text ≠ jsTrim text :=
        fun lt hl hcon => hd ⟨lt, hl, hcon⟩
      rw [addTask_of_new w now text s h0 hfresh]
      cases w with
      | false => left; simp [saveTasks]
      | true => right; simp [saveTasks]

/-- Helper: openDeleteModal never changes the task list. -/
lemma openDeleteModal_tasks (id : Nat) (s : StoreState) :
    (openDeleteModal id s).tasks = s.tasks := by
  unfold openDeleteModal
  cases s.tasks.find? (fun t => t.id == id) <;> rfl

/-- Helper: confirmDeleteTask either leaves the list alone or removes the
tasks carrying the staged id. -/
lemma confirmDeleteTask_tasks_cases (w : Bool) (now : Nat) (s : StoreState) :
    (confirmDeleteTask w now s).tasks = s.tasks ∨
      ∃ pid, (confirmDeleteTask w now s).tasks = s.tasks.filter (fun task => task.id != pid) := by
  unfold confirmDeleteTask
  cases s.taskPendingDeleteId with
  | none => exact Or.inl rfl
  | some pid =>
    by_cases h0 : pid = 0
    · left
      simp [h0]
    · simp only [h0, if_false]
      cases hf : s.tasks.find? (fun t => t.id == pid) with
      | none => exact Or.inl rfl
      | some t0 =>
        cases w with
        | false => left; simp [saveTasks, closeDeleteModal]
        | true => right; exact ⟨pid, by simp [saveTasks, closeDeleteModal]⟩

/-- Helper: toggleDone changes done flags only, never the ids. -/
lemma toggleDone_taskIds (w : Bool) (id : Nat) (s : StoreState) :
    taskIds (toggleDone w id s).tasks = taskIds s.tasks := by
  have htasks : (toggleDone w id s).tasks =
      (saveTasks w
        (s.tasks.map (fun task => if task.id = id then { task with done := !task.done } else task))
        s).tasks := by
    unfold toggleDone
    cases s.tasks.find? (fun t => t.id == id) <;> rfl
  rw [htasks]
  cases w with
  | false => rfl
  | true =>
    show taskIds (s.tasks.map
      (fun task => if task.id = id then { task with done := !task.done } else task)) = taskIds s.tasks
    unfold taskIds
    rw [List.map_map]
    apply List.map_congr_left
    intro a _
    by_cases h : a.id = id <;> simp [h, Function.comp]

/-- Helper: the id-uniqueness invariant for runs, generalized over the start
state. hfresh says no id currently in the list will be observed again as an
add-time; htimes says the add-times of the remaining operations are pairwise
distinct. -/
lemma runOps_nodup_aux (ops : List ListOp) (s : StoreState)
    (hfresh : ∀ i ∈ taskIds s.tasks, i ∉ addTimes ops)
    (hnodup : (taskIds s.tasks).Nodup)
    (htimes : (addTimes ops).Nodup) :
    (taskIds (List.foldl applyListOp s ops).tasks).Nodup := by
  induction ops generalizing s with
  | nil => simpa using hnodup
  | cons op rest ih =>
    rw [List.foldl_cons]
    cases op with
    | addOp text τ =>
      have hdec := List.nodup_cons.mp (show (τ :: addTimes rest).Nodup from htimes)
      rcases addTask_tasks_cases true τ text s with hcase | hcase
      · apply ih (applyListOp s (ListOp.addOp text τ)) ?_ ?_ hdec.2
        · intro i hi
          rw [show (applyListOp s (ListOp.addOp text τ)).tasks = s.tasks from hcase] at hi
          exact fun hmem => hfresh i hi (List.mem_cons_of_mem τ hmem)
        · rw [show (applyListOp s (ListOp.addOp text τ)).tasks = s.tasks from hcase]
          exact hnodup
      · apply ih (applyListOp s (ListOp.addOp text τ)) ?_ ?_ hdec.2
        · intro i hi
          rw [show (applyListOp s (ListOp.addOp text τ)).tasks = _ from hcase] at hi
          simp only [taskIds, List.map_append, List.map_cons, List.map_nil,
            List.mem_append, List.mem_singleton] at hi
          rcases hi with hi | hi
          · exact fun hmem => hfresh i hi (List.mem_cons_of_mem τ hmem)
          · rw [hi]
            exact hdec.1
        · rw [show (applyListOp s (ListOp.addOp text τ)).tasks = _ from hcase]
          simp only [taskIds, List.map_append, List.map_cons, List.map_nil]
          rw [List.nodup_append]
          refine ⟨hnodup, List.nodup_singleton τ, ?_⟩
          intro i hi hi2
          rw [List.mem_singleton] at hi2
          have := hfresh i hi
          rw [hi2] at this
          exact this (List.mem_cons_self τ (addTimes rest))
    | deleteOp id τ =>
      have hsub : (applyListOp s (ListOp.deleteOp id τ)).tasks.Sublist s.tasks := by
        have h1 : (openDeleteModal id s).tasks = s.tasks := openDeleteModal_tasks id s
        rcases confirmDeleteTask_tasks_cases true τ (openDeleteModal id s) with hc | ⟨p, hc⟩
        · rw [show (applyListOp s (ListOp.deleteOp id τ)).tasks = _ from hc, h1]
        · rw [show (applyListOp s (ListOp.deleteOp id τ)).tasks = _ from hc, h1]
          exact List.filter_sublist s.tasks
      have hidsub : (taskIds (applyListOp s (ListOp.deleteOp id τ)).tasks).Sublist (taskIds s.tasks) :=
        hsub.map Task.id
      apply ih (applyListOp s (ListOp.deleteOp id τ)) ?_ ?_ htimes
      · intro i hi
        exact hfresh i (hidsub.subset hi)
      · exact hnodup.sublist hidsub
    | toggleOp id =>
      apply ih (applyListOp s (ListOp.toggleOp id)) ?_ ?_ htimes
      · intro i hi
        rw [show (applyListOp s (ListOp.toggleOp id)).tasks = (toggleDone true id s).tasks from rfl,
          toggleDone_taskIds true id s] at hi
        exact hfresh i hi
      · rw [show (applyListOp s (ListOp.toggleOp id)).tasks = (toggleDone true id s).tasks from rfl,
          toggleDone_taskIds true id s]
        exact hnodup

/-- C2 counterexample: ids come from Date.now(), so two adds that observe the
same clock value produce two tasks with the same id; the resulting list has a
duplicated id, refuting the claim for that operation sequence. -/
theorem claim2_counterexample :
    ¬ (taskIds (runOps [ListOp.addOp "a" 5, ListOp.addOp "b" 5]).tasks).Nodup := by
  decide

/-- C2 amended: for every sequence of add, delete, and toggle operations from
the empty store in which the clock values observed by the adds are pairwise
distinct (a strictly increasing millisecond clock), every task id in the
resulting list is unique. -/
theorem claim2_unique_ids (ops : List ListOp)
    (htimes : (addTimes ops).Nodup) :
    (taskIds (runOps ops).tasks).Nodup :=
  runOps_nodup_aux ops initialState
    (by intro i hi; simp [initialState, taskIds] at hi)
    (by simp [initialState, taskIds])
    htimes

/-- Witness for the amended C2 at a concrete operation sequence with distinct
add times. -/
theorem claim2_witness :
    (taskIds (runOps [ListOp.addOp "a" 1, ListOp.addOp "b" 2, ListOp.toggleOp 1,
      ListOp.deleteOp 1 3, ListOp.addOp "c" 4]).tasks).Nodup :=
  claim2_unique_ids
    [ListOp.addOp "a" 1, ListOp.addOp "b" 2, ListOp.toggleOp 1,
      ListOp.deleteOp 1 3, ListOp.addOp "c" 4]
    (by decide)

end TodoHeroes
